import Mathlib

/-
Verification of the `spiketools.utils.checks` module (general purpose
checker functions) against its natural-language specification.

The Python source is shallowly embedded:
  * numpy arrays are represented by their shape (a list of dimension
    sizes); orientation inference only reads the shape;
  * numeric data values are exact rationals (the source's float
    arithmetic on the inputs exercised here is exact);
  * possibly-NaN floats are `Option ℚ` with `none` standing for NaN
    (numpy comparisons against NaN are false, and nan-aware reductions
    skip NaN entries);
  * fallible Python code returns `Except PyErr`, with one constructor
    per distinct runtime error the source can raise;
  * the advisory warning side channel of `check_bin_range` is modelled
    as a count of emitted warnings.
-/

namespace SpikeTools

/-- Runtime errors the embedded Python functions can raise.
`missingParameter` is the AssertionError at checks.py line 300
("either `values` or `time_range` required"); `malformedBins` is the
AssertionError at line 306 ("Bin definition is ill-formed.");
`dimensionalityError` is the AssertionError at line 144 ("only works up
to 3d"); `valueError` is numpy's error for a reduction (np.max) over a
zero-size array; `zeroDivisionError` is numpy's error for np.arange with
step 0; `unboundLocalError` is Python's error for reading a local
variable (`orientation`) that was never assigned; `indexError` is
Python's error for an out-of-range sequence index. -/
inductive PyErr where
  | missingParameter
  | malformedBins
  | dimensionalityError
  | valueError
  | zeroDivisionError
  | unboundLocalError
  | indexError
deriving DecidableEq, Repr

/-- The orientation enumeration returned by `check_array_orientation`. -/
inductive Orientation where
  | vector
  | row
  | column
deriving DecidableEq, Repr

/-- A numpy ndarray, abstracted to its shape (list of dimension sizes);
the orientation checkers in checks.py read only `arr.ndim`,
`arr.shape` and `arr.size`. -/
structure NDArray where
  shape : List ℕ
deriving DecidableEq, Repr

/-- `arr.ndim`: the number of dimensions. -/
def NDArray.ndim (a : NDArray) : ℕ := a.shape.length

/-- `arr.size`: the total number of elements (product of the shape). -/
def NDArray.size (a : NDArray) : ℕ := a.shape.prod

/-- Python negative index `t[-1]` on a tuple, as an optional lookup. -/
def pyLast (l : List ℕ) : Option ℕ := l.getLast?

/-- Python negative index `t[-2]` on a tuple, as an optional lookup. -/
def pySecondLast (l : List ℕ) : Option ℕ := l.dropLast.getLast?

/-- checks.py lines 123-165, `check_array_orientation(arr)`:
`assert arr.ndim < 4`; 1d arrays are `vector`; otherwise, if some
dimension is zero, return `row` when `shape[-1] == 0`, `column` when
`shape[-2] == 0` (and crash with UnboundLocalError when the zero is in
an earlier dimension, since no branch assigns `orientation`); otherwise
return `row` when `shape[-1] >= shape[-2]`, else `column`. A 0d array
reaches `shape[-1]` on an empty tuple, an IndexError. -/
def check_array_orientation (arr : NDArray) : Except PyErr Orientation :=
  if 4 ≤ arr.ndim then
    .error .dimensionalityError
  else if arr.ndim = 1 then
    .ok .vector
  else if 0 ∈ arr.shape then
    if pyLast arr.shape = some 0 then
      .ok .row
    else if pySecondLast arr.shape = some 0 then
      .ok .column
    else
      .error .unboundLocalError
  else
    match pyLast arr.shape, pySecondLast arr.shape with
    | some d1, some d2 => if d2 ≤ d1 then .ok .row else .ok .column
    | _, _ => .error .indexError

/-- checks.py lines 189-194: the loop
`array = arr_lst[0]; for cur_arr in arr_lst: if cur_arr.size > 4:
array = cur_arr; break` — the first array with more than 4 elements,
or the default (the first array) when none qualifies. -/
def first_large (default : NDArray) : List NDArray → NDArray
  | [] => default
  | cur :: rest => if 4 < cur.size then cur else first_large default rest

/-- checks.py lines 168-198, `check_array_lst_orientation(arr_lst)`:
`None` for an empty list, otherwise `check_array_orientation` of the
first array with more than 4 elements (defaulting to the first array). -/
def check_array_lst_orientation (lst : List NDArray) :
    Except PyErr (Option Orientation) :=
  match lst with
  | [] => .ok none
  | a0 :: rest => (check_array_orientation (first_large a0 (a0 :: rest))).map some

/-- checks.py line 14: `AXISARG = defaultdict(lambda : -1,
\x7b'vector' : 0, 'row' : 1, 'column' : 0\x7d)`; `none` (no orientation,
from an empty list) hits the default -1. -/
def AXISARG : Option Orientation → ℤ
  | some .vector => 0
  | some .row => 1
  | some .column => 0
  | none => -1

/-- Python truthiness of the `axis` argument (`if not axis:`): `None`
and `0` are falsy, every other integer is truthy. -/
def pyTruthyInt : Option ℤ → Bool
  | none => false
  | some v => v != 0

/-- checks.py lines 201-231, `check_axis(axis, arr)`: a truthy `axis`
is returned unchanged; otherwise the orientation is inferred
(`check_array_lst_orientation` when `arr` is a Python list, else
`check_array_orientation`) and mapped through `AXISARG`. -/
def check_axis (axis : Option ℤ) (arr : NDArray ⊕ List NDArray) :
    Except PyErr ℤ :=
  if pyTruthyInt axis then
    .ok (axis.getD 0)
  else
    match arr with
    | .inr lst => (check_array_lst_orientation lst).map AXISARG
    | .inl a => (check_array_orientation a).map (fun o => AXISARG (some o))

/-- C2: `check_array_orientation` returns `vector` for every 1-D array;
for 2-D and 3-D arrays with no zero-length dimension it returns `row`
when the last dimension size is at least the second-to-last (so (3,5)
and the tie (4,4) give `row`) and `column` otherwise (so (5,3) gives
`column`). -/
theorem c2_check_array_orientation_shapes :
    (∀ arr : NDArray, arr.ndim = 1 →
      check_array_orientation arr = .ok .vector) ∧
    (∀ arr : NDArray, (arr.ndim = 2 ∨ arr.ndim = 3) → 0 ∉ arr.shape →
      ∀ d1 d2, pyLast arr.shape = some d1 → pySecondLast arr.shape = some d2 →
        check_array_orientation arr =
          .ok (if d2 ≤ d1 then .row else .column)) ∧
    check_array_orientation ⟨[3, 5]⟩ = .ok .row ∧
    check_array_orientation ⟨[5, 3]⟩ = .ok .column ∧
    check_array_orientation ⟨[4, 4]⟩ = .ok .row := by
  refine ⟨?_, ?_, rfl, rfl, rfl⟩
  · intro arr h
    have h4 : ¬ 4 ≤ arr.ndim := by omega
    simp [check_array_orientation, h, h4]
  · intro arr hdim hmem d1 d2 h1 h2
    have h4 : ¬ 4 ≤ arr.ndim := by omega
    have hone : ¬ arr.ndim = 1 := by omega
    simp only [check_array_orientation, if_neg h4, if_neg hone, if_neg hmem,
      h1, h2]
    split <;> rfl

/-- C2 witness: the universally quantified parts of
`c2_check_array_orientation_shapes` instantiated at the concrete shapes
(7), and (2, 6). -/
theorem c2_check_array_orientation_shapes_witness :
    check_array_orientation ⟨[7]⟩ = .ok .vector ∧
    check_array_orientation ⟨[2, 6]⟩ =
      .ok (if 2 ≤ 6 then Orientation.row else Orientation.column) := by
  constructor
  · exact c2_check_array_orientation_shapes.1 ⟨[7]⟩ rfl
  · exact c2_check_array_orientation_shapes.2.1 ⟨[2, 6]⟩ (Or.inl rfl)
      (by decide) 6 2 rfl rfl

/-- C3 counterexample: the claim says shape (0,5) gives `row` and (5,0)
gives `column`; the code returns `column` for (0,5) (its second-to-last
dimension is the zero one) and `row` for (5,0), the opposite. -/
theorem c3_empty_shape_counterexample :
    check_array_orientation ⟨[0, 5]⟩ = .ok .column ∧
    check_array_orientation ⟨[5, 0]⟩ = .ok .row ∧
    Orientation.column ≠ Orientation.row := by
  exact ⟨rfl, rfl, by decide⟩

/-- C3 amended: `check_array_orientation` on shape (0,5) returns
`column` (the zero is the second-to-last dimension), and on shape (5,0)
returns `row` (the zero is the last dimension). -/
theorem c3_empty_shape_amended :
    check_array_orientation ⟨[0, 5]⟩ = .ok .column ∧
    check_array_orientation ⟨[5, 0]⟩ = .ok .row :=
  ⟨rfl, rfl⟩

/-- C4: the claim (totality on 1-3 dimensional arrays) is the
documented intent, but the code crashes on a 3-D array whose only
zero-length dimension is the leading one: shape (0,3,5) enters the
`0 in arr.shape` branch, neither `shape[-1]` nor `shape[-2]` is zero,
no branch assigns `orientation`, and the final `return orientation`
raises UnboundLocalError instead of returning an orientation. -/
theorem c4_unbound_local_on_leading_zero :
    check_array_orientation ⟨[0, 3, 5]⟩ = .error .unboundLocalError :=
  rfl

/-- The loop of checks.py lines 190-194 selects the first array with
more than 4 elements, defaulting to the initial value. -/
theorem first_large_eq_find (default : NDArray) (lst : List NDArray) :
    first_large default lst =
      (lst.find? (fun a => 4 < a.size)).getD default := by
  induction lst with
  | nil => rfl
  | cons cur rest ih =>
    by_cases hc : 4 < cur.size
    · simp [first_large, List.find?, hc]
    · simp [first_large, List.find?, hc, ih]

/-- C10: `check_array_lst_orientation` returns no orientation for an
empty collection; for a non-empty collection it returns
`check_array_orientation` of the first array whose total element count
exceeds 4, or of the first array when none qualifies; on
[array of size 2, array of shape (3,5)] it returns `row`. -/
theorem c10_check_array_lst_orientation :
    check_array_lst_orientation [] = .ok none ∧
    (∀ (lst : List NDArray) (h : lst ≠ []),
      check_array_lst_orientation lst =
        (check_array_orientation
          ((lst.find? (fun a => 4 < a.size)).getD (lst.head h))).map some) ∧
    check_array_lst_orientation [⟨[2]⟩, ⟨[3, 5]⟩] = .ok (some .row) := by
  refine ⟨rfl, ?_, rfl⟩
  intro lst h
  match lst with
  | a0 :: rest =>
    show (check_array_orientation (first_large a0 (a0 :: rest))).map some = _
    rw [first_large_eq_find]
    rfl

/-- C10 witness: the non-empty case of
`c10_check_array_lst_orientation` at the concrete collection
[array of size 2, array of shape (3,5)]. -/
theorem c10_check_array_lst_orientation_witness :
    check_array_lst_orientation [⟨[2]⟩, ⟨[3, 5]⟩] =
      (check_array_orientation
        ((([⟨[2]⟩, ⟨[3, 5]⟩] : List NDArray).find?
          (fun a => 4 < a.size)).getD ⟨[2]⟩)).map some :=
  c10_check_array_lst_orientation.2.1 [⟨[2]⟩, ⟨[3, 5]⟩] (by decide)

/-- C5: `check_axis` returns any truthy axis unchanged; axis `None` and
the falsy literal `0` both trigger inference, through
`check_array_lst_orientation` for a list input and
`check_array_orientation` for a single array, mapped through the fixed
table vector to 0, row to 1, column to 0, anything else to -1; so a 1-D
array infers 0, shape (5,3) infers 0 and shape (3,5) infers 1. -/
theorem c5_check_axis :
    (∀ a : ℤ, a ≠ 0 → ∀ arr, check_axis (some a) arr = .ok a) ∧
    (∀ arr, check_axis (some 0) arr = check_axis none arr) ∧
    (∀ arr : NDArray, check_axis none (.inl arr) =
      (check_array_orientation arr).map (fun o => AXISARG (some o))) ∧
    (∀ lst : List NDArray, check_axis none (.inr lst) =
      (check_array_lst_orientation lst).map AXISARG) ∧
    AXISARG (some .vector) = 0 ∧ AXISARG (some .row) = 1 ∧
    AXISARG (some .column) = 0 ∧ AXISARG none = -1 ∧
    (∀ arr : NDArray, arr.ndim = 1 → check_axis none (.inl arr) = .ok 0) ∧
    check_axis none (.inl ⟨[5, 3]⟩) = .ok 0 ∧
    check_axis none (.inl ⟨[3, 5]⟩) = .ok 1 := by
  refine ⟨?_, ?_, ?_, ?_, rfl, rfl, rfl, rfl, ?_, rfl, rfl⟩
  · intro a ha arr
    simp [check_axis, pyTruthyInt, ha]
  · intro arr
    rfl
  · intro arr
    rfl
  · intro lst
    rfl
  · intro arr h
    have h4 : ¬ 4 ≤ arr.ndim := by omega
    simp [check_axis, pyTruthyInt, check_array_orientation, h, h4, AXISARG,
      Except.map]

/-- C5 witness: `c5_check_axis` at the concrete axis 2 (returned
unchanged) and at a concrete 1-D array (inferring 0). -/
theorem c5_check_axis_witness :
    check_axis (some 2) (.inl ⟨[3, 5]⟩) = .ok 2 ∧
    check_axis none (.inl ⟨[9]⟩) = .ok 0 :=
  ⟨c5_check_axis.1 2 (by decide) (.inl ⟨[3, 5]⟩),
   c5_check_axis.2.2.2.2.2.2.2.2.1 ⟨[9]⟩ rfl⟩

/-- numpy `np.nanmin`: the minimum of the non-NaN entries (`none`
models NaN); `none` when every entry is NaN (numpy returns NaN there). -/
def np_nanmin (l : List (Option ℚ)) : Option ℚ := (l.filterMap id).min?

/-- numpy `np.nanmax`: the maximum of the non-NaN entries. -/
def np_nanmax (l : List (Option ℚ)) : Option ℚ := (l.filterMap id).max?

/-- Python float `<` against a possibly-NaN left operand: any
comparison with NaN is false. -/
def pyLt (a : Option ℚ) (b : ℚ) : Bool :=
  match a with
  | none => false
  | some q => decide (q < b)

/-- Python float `>` against a possibly-NaN left operand. -/
def pyGt (a : Option ℚ) (b : ℚ) : Bool :=
  match a with
  | none => false
  | some q => decide (b < q)

/-- checks.py lines 234-248, `check_bin_range(values, bin_area)`:
nothing happens for empty `values`; otherwise the nan-aware minimum and
maximum of `values` are compared against `bin_area[0]` and
`bin_area[-1]` and one advisory warning is emitted when they extend
beyond that range. The result counts the warnings emitted;
`bin_area[0]` on an empty sequence is an IndexError. -/
def check_bin_range (values : List (Option ℚ)) (bin_area : List ℚ) :
    Except PyErr ℕ :=
  if 0 < values.length then
    match bin_area.head?, bin_area.getLast? with
    | some a0, some aN =>
      .ok (if pyLt (np_nanmin values) a0 || pyGt (np_nanmax values) aN
           then 1 else 0)
    | _, _ => .error .indexError
  else
    .ok 0

/-- The length of `np.arange(start, stop, step)`:
`ceil((stop - start) / step)`, clamped at zero. -/
def arangeLen (start stop step : ℚ) : ℕ :=
  (Int.ceil ((stop - start) / step)).toNat

/-- The value list of `np.arange(start, stop, step)`: the arithmetic
progression `start + i * step` for `i < arangeLen`, so `stop` is an
exclusive bound. -/
def arangeList (start stop step : ℚ) : List ℚ :=
  (List.range (arangeLen start stop step)).map
    (fun i : ℕ => start + (i : ℚ) * step)

/-- numpy `np.arange(start, stop, step)`; a zero step raises
ZeroDivisionError. -/
def np_arange (start stop step : ℚ) : Except PyErr (List ℚ) :=
  if step = 0 then .error .zeroDivisionError
  else .ok (arangeList start stop step)

/-- numpy `np.max`: the maximum of the values; reducing a zero-size
array raises ValueError. -/
def np_max (l : List ℚ) : Except PyErr ℚ :=
  match l.max? with
  | some m => .ok m
  | none => .error .valueError

/-- checks.py lines 294-306, the bin-resolution body of
`check_time_bins`: a scalar-width `bins` is expanded with
`np.arange(time_range[0], time_range[1] + bins, bins)` when a (truthy)
time range is given, with `np.arange(0, np.max(values) + bins, bins)`
when only `values` is given, and raises the MissingParameter assertion
when neither is given; an explicit edge array is asserted to be
strictly increasing (`np.all(np.diff(bins) > 0)`) and returned
unchanged, raising the MalformedBins assertion otherwise. -/
def resolve_time_bins (bins : ℚ ⊕ List ℚ) (time_range : Option (ℚ × ℚ))
    (values : Option (List ℚ)) : Except PyErr (List ℚ) :=
  match bins with
  | .inl width =>
    match time_range with
    | some (s, e) => np_arange s (e + width) width
    | none =>
      match values with
      | none => .error .missingParameter
      | some vs => (np_max vs).bind (fun m => np_arange 0 (m + width) width)
  | .inr edges =>
    if List.Chain' (fun a b => a < b) edges then .ok edges
    else .error .malformedBins

/-- checks.py lines 308-311: `check_bin_range(values, bins)` runs only
when `values` is present and non-empty and `check_range` is set; the
result counts the advisory warnings emitted. -/
def range_warn_count (values : Option (List ℚ)) (check_range : Bool)
    (edges : List ℚ) : Except PyErr ℕ :=
  match values with
  | none => .ok 0
  | some vs =>
    if 0 < vs.length then
      if check_range then check_bin_range (vs.map some) edges else .ok 0
    else .ok 0

/-- Pair the resolved edges with the advisory warning count. -/
def attach_warnings (values : Option (List ℚ)) (check_range : Bool)
    (res : Except PyErr (List ℚ)) : Except PyErr (List ℚ × ℕ) :=
  res.bind (fun edges =>
    (range_warn_count values check_range edges).map (fun n => (edges, n)))

/-- checks.py lines 251-313, `check_time_bins(bins, time_range, values,
check_range)`: resolve the bin specification to explicit edges and run
the advisory range check; the returned pair is the edge array together
with the number of advisory warnings emitted. -/
def check_time_bins (bins : ℚ ⊕ List ℚ) (time_range : Option (ℚ × ℚ))
    (values : Option (List ℚ)) (check_range : Bool) :
    Except PyErr (List ℚ × ℕ) :=
  attach_warnings values check_range (resolve_time_bins bins time_range values)

/-- A heap of Python list objects, for the aliasing claim: cell `r`
holds the contents of the list object referenced by `r`. -/
abbrev Heap := List (List ℚ)

/-- Read the list object at reference `r`. -/
def hread (h : Heap) (r : ℕ) : List ℚ := h.getD r []

/-- Overwrite the list object at reference `r`. -/
def hwrite (h : Heap) (r : ℕ) (l : List ℚ) : Heap := h.set r l

/-- checks.py lines 289-313 again, now with the caller's `time_range`
list passed by reference into an explicit heap, mirroring Python's
reference semantics. Line 292 (`time_range = deepcopy(time_range)`)
allocates a fresh cell holding a copy of the caller's list; the
scalar-width branch then mutates index 1 of that copy
(`time_range[1] = time_range[1] + bins`) and unpacks it into
`np.arange`. A falsy (empty) copied list, like a `None` time range,
falls through to the `values`-based branch. -/
def check_time_bins_heap (h : Heap) (bins : ℚ ⊕ List ℚ)
    (time_range : Option ℕ) (values : Option (List ℚ))
    (check_range : Bool) : Heap × Except PyErr (List ℚ × ℕ) :=
  match time_range with
  | none => (h, check_time_bins bins none values check_range)
  | some r =>
    let h1 : Heap := h ++ [hread h r]
    let rc : ℕ := h.length
    match bins with
    | .inl width =>
      if hread h1 rc = [] then
        (h1, check_time_bins (.inl width) none values check_range)
      else
        let lst := hread h1 rc
        let lst2 := lst.set 1 (lst.getD 1 0 + width)
        let h2 := hwrite h1 rc lst2
        (h2, attach_warnings values check_range
          (np_arange (lst2.getD 0 0) (lst2.getD 1 0) width))
    | .inr edges =>
      (h1, check_time_bins (.inr edges) none values check_range)

/-- The possibly-NaN comparison `pyLt` holds exactly on a real value
below the bound. -/
theorem pyLt_eq_true_iff (a : Option ℚ) (b : ℚ) :
    pyLt a b = true ↔ ∃ m, a = some m ∧ m < b := by
  cases a <;> simp [pyLt]

/-- The possibly-NaN comparison `pyGt` holds exactly on a real value
above the bound. -/
theorem pyGt_eq_true_iff (a : Option ℚ) (b : ℚ) :
    pyGt a b = true ↔ ∃ m, a = some m ∧ b < m := by
  cases a <;> simp [pyGt]

/-- With `check_range` left at its default False, the advisory range
check is skipped and no warning is emitted. -/
theorem range_warn_count_false (values : Option (List ℚ)) (edges : List ℚ) :
    range_warn_count values false edges = .ok 0 := by
  cases values <;> simp [range_warn_count]

/-- With `check_range` False, successful resolution pairs the edges
with a zero warning count. -/
theorem attach_warnings_false (values : Option (List ℚ)) (edges : List ℚ) :
    attach_warnings values false (.ok edges) = .ok (edges, 0) := by
  show (range_warn_count values false edges).map (fun n => (edges, n)) = _
  rw [range_warn_count_false]
  rfl

/-- Membership bound for `np.arange`: index `j` is generated exactly
when the `j`-th progression value lies strictly below the stop bound. -/
theorem arangeLen_lt_iff (w s stop : ℚ) (hw : 0 < w) (j : ℕ) :
    j < arangeLen s stop w ↔ s + (j : ℚ) * w < stop := by
  unfold arangeLen
  rw [Int.lt_toNat, Int.lt_ceil, lt_div_iff₀ hw]
  push_cast
  constructor <;> intro h <;> linarith

/-- When the range length is an exact multiple of the width, the
adjusted `np.arange` bound produces exactly `k + 1` edges. -/
theorem arangeLen_exact (w s e : ℚ) (k : ℕ) (hw : w ≠ 0)
    (hk : e - s = (k : ℚ) * w) : arangeLen s (e + w) w = k + 1 := by
  unfold arangeLen
  have h1 : e + w - s = ((k : ℚ) + 1) * w := by
    rw [add_mul, one_mul]
    linarith
  rw [h1, mul_div_cancel_right₀ _ hw]
  have h2 : ((k : ℚ) + 1) = ((k + 1 : ℕ) : ℚ) := by push_cast; ring
  rw [h2, Int.ceil_natCast]
  simp

/-- The last element of a mapped range. -/
theorem map_range_succ_getLast (f : ℕ → ℚ) (k : ℕ) :
    ((List.range (k + 1)).map f).getLast? = some (f k) := by
  rw [List.range_succ, List.map_append]
  exact List.getLast?_concat _

/-- C9: `check_bin_range` is a no-op on empty values; on non-empty
values it emits at most one advisory warning, and emits it exactly when
the NaN-ignoring minimum is below the first element of `bin_area` or
the NaN-ignoring maximum exceeds its last element; values [1,2,3]
against [0,5] warn zero times and [1,2,6] against [0,5] warn once. -/
theorem c9_check_bin_range_advisory :
    (∀ area : List ℚ, check_bin_range [] area = .ok 0) ∧
    (∀ (values : List (Option ℚ)) (area : List ℚ) (a0 aN : ℚ),
      values ≠ [] → area.head? = some a0 → area.getLast? = some aN →
      ∃ n, check_bin_range values area = .ok n ∧ n ≤ 1 ∧
        (n = 1 ↔ (∃ m, np_nanmin values = some m ∧ m < a0) ∨
          (∃ M, np_nanmax values = some M ∧ aN < M))) ∧
    check_bin_range [some 1, some 2, some 3] [0, 5] = .ok 0 ∧
    check_bin_range [some 1, some 2, some 6] [0, 5] = .ok 1 := by
  refine ⟨fun area => rfl, ?_, rfl, rfl⟩
  intro values area a0 aN hv h0 hN
  have hlen : 0 < values.length := List.length_pos.mpr hv
  refine ⟨if pyLt (np_nanmin values) a0 || pyGt (np_nanmax values) aN
          then 1 else 0, ?_, ?_, ?_⟩
  · simp [check_bin_range, hlen, h0, hN]
  · split <;> omega
  · by_cases hb : (pyLt (np_nanmin values) a0 ||
        pyGt (np_nanmax values) aN) = true
    · rw [if_pos hb]
      simp only [Bool.or_eq_true, pyLt_eq_true_iff, pyGt_eq_true_iff] at hb
      simpa using hb
    · rw [if_neg hb]
      constructor
      · intro h01
        exact absurd h01 (by decide)
      · intro hr
        exact absurd (by
          rw [Bool.or_eq_true, pyLt_eq_true_iff, pyGt_eq_true_iff]
          exact hr) hb

/-- C9 witness: the non-empty case of `c9_check_bin_range_advisory` at
values [1,2,6] against bin area [0,5]. -/
theorem c9_check_bin_range_advisory_witness :
    ∃ n, check_bin_range [some 1, some 2, some 6] [0, 5] = .ok n ∧
      n ≤ 1 ∧
      (n = 1 ↔ (∃ m, np_nanmin [some 1, some 2, some 6] = some m ∧ m < 0) ∨
        (∃ M, np_nanmax [some 1, some 2, some 6] = some M ∧ 5 < M)) :=
  c9_check_bin_range_advisory.2.1 [some 1, some 2, some 6] [0, 5] 0 5
    (by decide) rfl rfl

/-- C1: with a positive scalar width and a given time range, the
returned edges are the arithmetic progression from `start` with the
exclusive upper bound `end + width`; when `end - start` is an exact
multiple of the width the original `end` is the last edge, and
`check_time_bins(0.5, [0, 2], ...)` returns exactly
[0, 0.5, 1.0, 1.5, 2.0]; with no time range and given values the range
used is [0, max(values) + width]. -/
theorem c1_check_time_bins_scalar_width :
    (∀ (w s e : ℚ) (values : Option (List ℚ)), 0 < w →
      ∃ n, check_time_bins (.inl w) (some (s, e)) values false =
        .ok ((List.range n).map (fun i : ℕ => s + (i : ℚ) * w), 0) ∧
        ∀ j : ℕ, s + (j : ℚ) * w < e + w ↔ j < n) ∧
    (∀ (w s e : ℚ) (k : ℕ) (values : Option (List ℚ)), 0 < w →
      e - s = (k : ℚ) * w →
      check_time_bins (.inl w) (some (s, e)) values false =
        .ok ((List.range (k + 1)).map (fun i : ℕ => s + (i : ℚ) * w), 0) ∧
      ((List.range (k + 1)).map (fun i : ℕ => s + (i : ℚ) * w)).getLast? =
        some e) ∧
    (∀ (w : ℚ) (vs : List ℚ), 0 < w → vs ≠ [] →
      ∃ m, vs.max? = some m ∧
        check_time_bins (.inl w) none (some vs) false =
          .ok (arangeList 0 (m + w) w, 0)) ∧
    check_time_bins (.inl (1/2)) (some (0, 2)) (some [1/5, 2/5]) false =
      .ok ([0, 1/2, 1, 3/2, 2], 0) := by
  have hresolve : ∀ (w s e : ℚ) (values : Option (List ℚ)), w ≠ 0 →
      check_time_bins (.inl w) (some (s, e)) values false =
        .ok (arangeList s (e + w) w, 0) := by
    intro w s e values hw0
    show attach_warnings values false
      (resolve_time_bins (.inl w) (some (s, e)) values) = _
    rw [show resolve_time_bins (.inl w) (some (s, e)) values =
        Except.ok (arangeList s (e + w) w) from by
      simp [resolve_time_bins, np_arange, hw0]]
    exact attach_warnings_false values _
  refine ⟨?_, ?_, ?_, ?_⟩
  · intro w s e values hw
    refine ⟨arangeLen s (e + w) w, hresolve w s e values (ne_of_gt hw), ?_⟩
    intro j
    exact (arangeLen_lt_iff w s (e + w) hw j).symm
  · intro w s e k values hw hk
    have hw0 : w ≠ 0 := ne_of_gt hw
    have hlen := arangeLen_exact w s e k hw0 hk
    constructor
    · rw [hresolve w s e values hw0]
      unfold arangeList
      rw [hlen]
    · rw [map_range_succ_getLast]
      congr 1
      linarith
  · intro w vs hw hv
    have hw0 : w ≠ 0 := ne_of_gt hw
    cases hm : vs.max? with
    | none => exact absurd (List.max?_eq_none_iff.mp hm) hv
    | some m =>
      refine ⟨m, rfl, ?_⟩
      show attach_warnings (some vs) false
        (resolve_time_bins (.inl w) none (some vs)) = _
      rw [show resolve_time_bins (.inl w) none (some vs) =
          Except.ok (arangeList 0 (m + w) w) from by
        simp only [resolve_time_bins, np_max, hm, np_arange, if_neg hw0]
        rfl]
      exact attach_warnings_false (some vs) _
  · have h5 : arangeLen 0 (2 + 1/2) (1/2) = 5 := by
      unfold arangeLen
      rw [show ((2 + 1/2 - 0 : ℚ) / (1/2)) = ((5 : ℤ) : ℚ) by norm_num,
        Int.ceil_intCast]
      rfl
    have hlist : arangeList 0 (2 + 1/2) (1/2) = [0, 1/2, 1, 3/2, 2] := by
      unfold arangeList
      rw [h5, show List.range 5 = [0, 1, 2, 3, 4] from rfl]
      simp only [List.map, List.cons.injEq, and_true]
      norm_num
    rw [hresolve (1/2) 0 2 (some [1/5, 2/5]) (by norm_num), hlist]

/-- C1 witness: `c1_check_time_bins_scalar_width` at width 1/2 over the
range [0, 2], an exact multiple (k = 4), and at values [1, 3] with no
time range. -/
theorem c1_check_time_bins_scalar_width_witness :
    (check_time_bins (.inl (1/2)) (some (0, 2)) none false =
      .ok ((List.range (4 + 1)).map (fun i : ℕ => 0 + (i : ℚ) * (1/2)), 0) ∧
     ((List.range (4 + 1)).map
        (fun i : ℕ => (0 : ℚ) + (i : ℚ) * (1/2))).getLast? = some 2) ∧
    (∃ m, ([1, 3] : List ℚ).max? = some m ∧
      check_time_bins (.inl 1) none (some [1, 3]) false =
        .ok (arangeList 0 (m + 1) 1, 0)) :=
  ⟨c1_check_time_bins_scalar_width.2.1 (1/2) 0 2 4 none (by norm_num)
      (by norm_num),
   c1_check_time_bins_scalar_width.2.2.1 1 [1, 3] (by norm_num)
      (by decide)⟩

/-- C6 counterexample: with a scalar width, an absent time range and a
present-but-empty values array, `check_time_bins` raises numpy's
ValueError from `np.max` on a zero-size array — an error other than the
two the claim allows. -/
theorem c6_third_error_counterexample :
    check_time_bins (.inl 1) none (some ([] : List ℚ)) false =
      .error .valueError ∧
    PyErr.valueError ≠ PyErr.missingParameter ∧
    PyErr.valueError ≠ PyErr.malformedBins :=
  ⟨rfl, by decide, by decide⟩

/-- C6 amended: `check_time_bins` fails with the MissingParameter
assertion exactly when bins is a scalar and both time_range and values
are absent; fails with the MalformedBins assertion exactly when bins is
an explicit edge array whose consecutive differences are not all
strictly positive; additionally fails with a ValueError when bins is a
scalar, time_range is absent, and values is present but empty; with a
nonzero scalar width and the advisory range check left at its default,
no other error is raised. -/
theorem c6_error_classification :
    (∀ (w : ℚ) (cr : Bool),
      check_time_bins (.inl w) none none cr = .error .missingParameter) ∧
    (∀ (w : ℚ) (cr : Bool),
      check_time_bins (.inl w) none (some []) cr = .error .valueError) ∧
    (∀ (w s e : ℚ) (values : Option (List ℚ)), w ≠ 0 →
      check_time_bins (.inl w) (some (s, e)) values false =
        .ok (arangeList s (e + w) w, 0)) ∧
    (∀ (w : ℚ) (vs : List ℚ), w ≠ 0 → vs ≠ [] →
      ∃ edges, check_time_bins (.inl w) none (some vs) false =
        .ok (edges, 0)) ∧
    (∀ (edges : List ℚ) (tr : Option (ℚ × ℚ)) (values : Option (List ℚ)),
      List.Chain' (fun a b => a < b) edges →
      check_time_bins (.inr edges) tr values false = .ok (edges, 0)) ∧
    (∀ (edges : List ℚ) (tr : Option (ℚ × ℚ)) (values : Option (List ℚ))
      (cr : Bool), ¬ List.Chain' (fun a b => a < b) edges →
      check_time_bins (.inr edges) tr values cr = .error .malformedBins) := by
  refine ⟨fun w cr => rfl, fun w cr => rfl, ?_, ?_, ?_, ?_⟩
  · intro w s e values hw0
    show attach_warnings values false
      (resolve_time_bins (.inl w) (some (s, e)) values) = _
    rw [show resolve_time_bins (.inl w) (some (s, e)) values =
        Except.ok (arangeList s (e + w) w) from by
      simp [resolve_time_bins, np_arange, hw0]]
    exact attach_warnings_false values _
  · intro w vs hw0 hv
    cases hm : vs.max? with
    | none => exact absurd (List.max?_eq_none_iff.mp hm) hv
    | some m =>
      refine ⟨arangeList 0 (m + w) w, ?_⟩
      show attach_warnings (some vs) false
        (resolve_time_bins (.inl w) none (some vs)) = _
      rw [show resolve_time_bins (.inl w) none (some vs) =
          Except.ok (arangeList 0 (m + w) w) from by
        simp only [resolve_time_bins, np_max, hm, np_arange, if_neg hw0]
        rfl]
      exact attach_warnings_false (some vs) _
  · intro edges tr values hmono
    show attach_warnings values false
      (resolve_time_bins (.inr edges) tr values) = _
    rw [show resolve_time_bins (.inr edges) tr values = Except.ok edges from by
      simp [resolve_time_bins, if_pos hmono]]
    exact attach_warnings_false values edges
  · intro edges tr values cr hmono
    show attach_warnings values cr
      (resolve_time_bins (.inr edges) tr values) = _
    rw [show resolve_time_bins (.inr edges) tr values =
        Except.error PyErr.malformedBins from by
      simp [resolve_time_bins, if_neg hmono]]
    rfl

/-- C6 witness: `c6_error_classification` instantiated at width 1 over
the range [0, 2], at values [1, 3] with no range, at the well-formed
edge array [0, 1, 2] and at the ill-formed edge array [0, 1, 1]. -/
theorem c6_error_classification_witness :
    check_time_bins (.inl 1) (some (0, 2)) none false =
      .ok (arangeList 0 (2 + 1) 1, 0) ∧
    (∃ edges, check_time_bins (.inl 1) none (some [1, 3]) false =
      .ok (edges, 0)) ∧
    check_time_bins (.inr [0, 1, 2]) none none false = .ok ([0, 1, 2], 0) ∧
    check_time_bins (.inr [0, 1, 1]) none none false =
      .error .malformedBins :=
  ⟨c6_error_classification.2.2.1 1 0 2 none (by norm_num),
   c6_error_classification.2.2.2.1 1 [1, 3] (by norm_num) (by decide),
   c6_error_classification.2.2.2.2.1 [0, 1, 2] none none (by
     simp only [List.chain'_cons, List.chain'_singleton, and_true]
     norm_num),
   c6_error_classification.2.2.2.2.2 [0, 1, 1] none none false (by
     simp only [List.chain'_cons, List.chain'_singleton, and_true]
     norm_num)⟩

/-- C7: once the bin specification is an explicit strictly increasing
edge array, `check_time_bins` returns it unchanged, so feeding the
result back into `check_time_bins` yields the same edge array. -/
theorem c7_resolved_edges_round_trip :
    ∀ (edges : List ℚ) (tr tr2 : Option (ℚ × ℚ))
      (values values2 : Option (List ℚ)),
      List.Chain' (fun a b => a < b) edges →
      check_time_bins (.inr edges) tr values false = .ok (edges, 0) ∧
      (check_time_bins (.inr edges) tr values false).bind
        (fun res => check_time_bins (.inr res.1) tr2 values2 false) =
        .ok (edges, 0) := by
  intro edges tr tr2 values values2 hmono
  have hok : ∀ (tr3 : Option (ℚ × ℚ)) (values3 : Option (List ℚ)),
      check_time_bins (.inr edges) tr3 values3 false = .ok (edges, 0) := by
    intro tr3 values3
    show attach_warnings values3 false
      (resolve_time_bins (.inr edges) tr3 values3) = _
    rw [show resolve_time_bins (.inr edges) tr3 values3 =
        Except.ok edges from by simp [resolve_time_bins, if_pos hmono]]
    exact attach_warnings_false values3 edges
  refine ⟨hok tr values, ?_⟩
  rw [hok tr values]
  exact hok tr2 values2

/-- C7 witness: `c7_resolved_edges_round_trip` at the strictly
increasing edge array [0, 1, 2]. -/
theorem c7_resolved_edges_round_trip_witness :
    check_time_bins (.inr [0, 1, 2]) none none false = .ok ([0, 1, 2], 0) ∧
    (check_time_bins (.inr [0, 1, 2]) none none false).bind
      (fun res => check_time_bins (.inr res.1) none none false) =
      .ok ([0, 1, 2], 0) :=
  c7_resolved_edges_round_trip [0, 1, 2] none none none none (by
    simp only [List.chain'_cons, List.chain'_singleton, and_true]
    norm_num)

/-- Reading below the allocation point is unaffected by the append the
allocation performs. -/
theorem hread_append_lt (h : Heap) (x : List ℚ) (r : ℕ)
    (hr : r < h.length) : hread (h ++ [x]) r = hread h r := by
  unfold hread
  rw [List.getD_eq_getElem?_getD, List.getD_eq_getElem?_getD,
    List.getElem?_append_left hr]

/-- Writing one cell leaves every other cell unchanged. -/
theorem hread_hwrite_ne (h : Heap) (i r : ℕ) (hne : i ≠ r) (l : List ℚ) :
    hread (hwrite h i l) r = hread h r := by
  unfold hread hwrite
  rw [List.getD_eq_getElem?_getD, List.getD_eq_getElem?_getD,
    List.getElem?_set_ne hne]

/-- The freshly allocated copy holds the caller's contents. -/
theorem hread_alloc (h : Heap) (x : List ℚ) :
    hread (h ++ [x]) h.length = x := by
  unfold hread
  rw [List.getD_eq_getElem?_getD, List.getElem?_concat_length]
  rfl

/-- C8: `check_time_bins` never mutates the caller's `time_range` list:
after the call the caller's cell holds exactly the values it held
before, even on the scalar-width path, where only the defensively
allocated copy has its end entry increased by the width; and on a
two-element range cell the call returns exactly what the value-level
`check_time_bins` returns for that range. -/
theorem c8_time_range_not_mutated :
    ∀ (h : Heap) (r : ℕ) (bins : ℚ ⊕ List ℚ) (values : Option (List ℚ))
      (cr : Bool), r < h.length →
      hread (check_time_bins_heap h bins (some r) values cr).1 r =
        hread h r ∧
      (∀ s e : ℚ, hread h r = [s, e] →
        (check_time_bins_heap h bins (some r) values cr).2 =
          check_time_bins bins (some (s, e)) values cr) := by
  intro h r bins values cr hr
  have hne : h.length ≠ r := by omega
  constructor
  · cases bins with
    | inl w =>
      by_cases hc : hread (h ++ [hread h r]) h.length = []
      · simp only [check_time_bins_heap, if_pos hc]
        exact hread_append_lt h _ r hr
      · simp only [check_time_bins_heap, if_neg hc]
        rw [hread_hwrite_ne _ _ _ hne, hread_append_lt h _ r hr]
    | inr edges =>
      simp only [check_time_bins_heap]
      exact hread_append_lt h _ r hr
  · intro s e hcell
    have hcopy : hread (h ++ [hread h r]) h.length = [s, e] := by
      rw [hread_alloc, hcell]
    cases bins with
    | inl w =>
      have hc : ¬ hread (h ++ [hread h r]) h.length = [] := by
        rw [hcopy]
        simp
      simp only [check_time_bins_heap, if_neg hc, hcopy]
      rfl
    | inr edges =>
      simp only [check_time_bins_heap]
      rfl

/-- C8 witness: `c8_time_range_not_mutated` on a heap holding the
single caller range [0, 2], with scalar width 1: the caller's cell is
untouched and the result matches the value-level call. -/
theorem c8_time_range_not_mutated_witness :
    hread (check_time_bins_heap [[0, 2]] (.inl 1) (some 0) none false).1 0 =
      hread [[0, 2]] 0 ∧
    (check_time_bins_heap [[0, 2]] (.inl 1) (some 0) none false).2 =
      check_time_bins (.inl 1) (some (0, 2)) none false :=
  ⟨(c8_time_range_not_mutated [[0, 2]] 0 (.inl 1) none false
      (by decide)).1,
   (c8_time_range_not_mutated [[0, 2]] 0 (.inl 1) none false
      (by decide)).2 0 2 rfl⟩

end SpikeTools
